import Mathlib

/-!
# GPS DriftCast — verification of the descent/drift simulation engine

Shallow embedding of the drift-simulation core of the GPS DriftCast
repository (src/wind.js, src/main.js, src/launch.js, src/drift_simulation.js,
and the RocketWeathercocking class), with theorems settling the frozen
claims about the engine.

JavaScript numbers are embedded as rationals (ℚ): every arithmetic
expression the claims touch is exact rational arithmetic in the source
(additions, subtractions, multiplications by literal constants, guarded
divisions), so ℚ is a faithful carrier; NaN does not exist in ℚ and is
discussed claim-by-claim where the source checks for it.  Geographic
coordinates are embedded as real numbers because the geodetic projection
(geo.js, absent from the sources) is transcendental; it is modelled from
the spec.
-/

namespace DriftCast

/-- `WindAtAltitude` (src/wind.js lines 5-68): altitude (feet), wind speed
(knots) and wind direction (degrees from north) at one sampled altitude. -/
structure WindAtAltitude where
  altitude : ℚ
  windSpeed : ℚ
  windDirection : ℚ
  deriving DecidableEq, Repr

instance : Inhabited WindAtAltitude := ⟨⟨0, 0, 0⟩⟩

/-- List indexing with a (possibly negative) JavaScript-style index.  The
source guards every access with explicit bounds checks before indexing, so
the out-of-bounds default is never reached along guarded paths. -/
def jsGet (windData : List WindAtAltitude) (i : ℤ) : WindAtAltitude :=
  if 0 ≤ i then windData.getD i.toNat default else default

/-- `getWindBandPercentage` (src/wind.js lines 285-304): fraction of the
wind band `[floorIndex, floorIndex+1]` at which `rocketAltitude` sits;
`-1` on an out-of-bounds index, an altitude outside the band, or a
zero-height band. -/
def getWindBandPercentage (rocketAltitude : ℚ) (windData : List WindAtAltitude)
    (floorIndex : ℤ) : ℚ :=
  if floorIndex < 0 ∨ (windData.length : ℤ) ≤ floorIndex + 1 then -1
  else
    let altitudeFloor := (jsGet windData floorIndex).altitude
    let altitudeCeiling := (jsGet windData (floorIndex + 1)).altitude
    if rocketAltitude < altitudeFloor ∨ altitudeCeiling < rocketAltitude then -1
    else
      let rangeHeight := |altitudeCeiling - altitudeFloor|
      if rangeHeight = 0 then -1
      else |rocketAltitude - altitudeFloor| / rangeHeight

/-- `getAverageWindSpeed` (src/wind.js lines 313-328): average of the
band-floor speed and the speed linearly interpolated at `bandPercentage`;
`-1` on an invalid percentage or index. -/
def getAverageWindSpeed (bandPercentage : ℚ) (windData : List WindAtAltitude)
    (floorIndex : ℤ) : ℚ :=
  if bandPercentage < 0 ∨ 1 < bandPercentage then -1
  else if floorIndex < 0 ∨ (windData.length : ℤ) ≤ floorIndex + 1 then -1
  else
    let speedFloor := (jsGet windData floorIndex).windSpeed
    let speedRange := (jsGet windData (floorIndex + 1)).windSpeed - speedFloor
    let speedAtAltitude := speedFloor + bandPercentage * speedRange
    (speedFloor + speedAtAltitude) / 2

/-- Seam-aware average of the band-floor direction `directionA` and the
target direction: the shared core of `getAverageWindDirection`
(src/wind.js lines 348-360) and of the inline averaging in the
integration loops (src/main.js lines 1600-1609, src/drift_simulation.js
lines 126-135). -/
def averageDirectionCore (directionA targetDirection : ℚ) : ℚ :=
  let sum := directionA + targetDirection
  if |directionA - targetDirection| < 180 then sum / 2
  else
    let shifted := (sum - 360) / 2
    if shifted < 0 then shifted + 360 else shifted

/-- `getAverageWindDirection` (src/wind.js lines 337-361): seam-aware
average of the band-floor direction and the direction linearly
interpolated at `bandPercentage`; `-1` on an invalid percentage or
index. -/
def getAverageWindDirection (bandPercentage : ℚ) (windData : List WindAtAltitude)
    (floorIndex : ℤ) : ℚ :=
  if bandPercentage < 0 ∨ 1 < bandPercentage then -1
  else if floorIndex < 0 ∨ (windData.length : ℤ) ≤ floorIndex + 1 then -1
  else
    let directionA := (jsGet windData floorIndex).windDirection
    let targetDirection :=
      directionA + bandPercentage * ((jsGet windData (floorIndex + 1)).windDirection - directionA)
    averageDirectionCore directionA targetDirection

/-- The averaged-direction rule exactly as the specification words it
(spec 4.2 `averageDirection`): `(d0+d1)/2` when `|d0-d1| < 180`, else
`((d0+d1)-360)/2` normalized back into `[0,360)` by adding 360 if
negative.  Stated from the spec's words for comparison with the source's
`averageDirectionCore`. -/
def specAverageDirection (d0 d1 : ℚ) : ℚ :=
  if |d0 - d1| < 180 then (d0 + d1) / 2
  else if (d0 + d1 - 360) / 2 < 0 then (d0 + d1 - 360) / 2 + 360
  else (d0 + d1 - 360) / 2

/-- `linearInterpolate` (src/main.js lines 1297-1304, duplicated in the
RocketWeathercocking module): maps `sourceValue`'s position in the source
range onto the target range, defaulting to `targetLower` on a zero-width
source range. -/
def linearInterpolate (sourceValue sourceLower sourceUpper targetLower targetUpper : ℚ) : ℚ :=
  if sourceUpper - sourceLower = 0 then targetLower
  else targetLower + (sourceValue - sourceLower) * ((targetUpper - targetLower) / (sourceUpper - sourceLower))

/-- `WeathercockWindData` (src/wind.js lines 198-230): expected
weathercocking outcome (upwind distance travelled, resulting apogee) at a
given ground wind speed (MPH). -/
structure WeathercockWindData where
  windSpeed : ℚ
  upwindDistance : ℚ
  apogee : ℚ
  deriving DecidableEq, Repr

instance : Inhabited WeathercockWindData := ⟨⟨0, 0, 0⟩⟩

/-- Geographic coordinates (degrees).  Modelled from the spec: geo.js is
absent from the supplied sources; spec 3 `GeoPoint` is a latitude in
`[-90,90]` and a longitude in `[-180,180]`. -/
structure GeoLocation where
  latitude : ℝ
  longitude : ℝ

/-- Modelled from the spec: feet-to-meters conversion, a pure unit
conversion per spec 4.1 (1 ft = 0.3048 m, the international foot). -/
def feetToMeters (feet : ℚ) : ℚ := feet * 0.3048

open Classical in
/-- Two-argument arctangent with the JavaScript `Math.atan2` branch
conventions (in particular `atan2 0 0 = 0`), used by the spherical
forward geodetic formula. -/
noncomputable def atan2 (y x : ℝ) : ℝ :=
  if 0 < x then Real.arctan (y / x)
  else if x < 0 ∧ 0 ≤ y then Real.arctan (y / x) + Real.pi
  else if x < 0 then Real.arctan (y / x) - Real.pi
  else if 0 < y then Real.pi / 2
  else if y < 0 then -(Real.pi / 2)
  else 0

/-- Modelled from the spec: wrap a longitude into `[-180, 180)`
(spec 4.1: "wrap longitude into [-180,180)"). -/
noncomputable def wrapLongitude (x : ℝ) : ℝ :=
  x - 360 * ⌊(x + 180) / 360⌋

/-- Modelled from the spec: `project` / `moveAlongBearing` of the absent
geo.js.  Spec 4.1: the point reached by moving `distanceMeters` along
great-circle bearing `bearingDeg` (0 = north, clockwise), by the
spherical-Earth forward geodetic formula with mean Earth radius
6,371,000 m, the result longitude wrapped into `[-180,180)`. -/
noncomputable def moveAlongBearing (loc : GeoLocation) (distanceMeters bearingDeg : ℚ) : GeoLocation :=
  let angularDistance := (distanceMeters : ℝ) / 6371000
  let lat1 := loc.latitude * Real.pi / 180
  let bearing := (bearingDeg : ℝ) * Real.pi / 180
  let lat2 := Real.arcsin (Real.sin lat1 * Real.cos angularDistance +
    Real.cos lat1 * Real.sin angularDistance * Real.cos bearing)
  let lon2 := loc.longitude * Real.pi / 180 +
    atan2 (Real.sin bearing * Real.sin angularDistance * Real.cos lat1)
      (Real.cos angularDistance - Real.sin lat1 * Real.sin lat2)
  ⟨lat2 * 180 / Real.pi, wrapLongitude (lon2 * 180 / Real.pi)⟩

/-- `driftWithWind` (src/wind.js lines 371-398): returns early (location
unchanged, no division performed) on a zero descent rate; otherwise
divides the descent distance by the absolute rate, converts the averaged
wind speed from knots to ft/s (factor 1.68781), inverts the wind bearing
to drift downwind and projects the location by the drift distance. -/
noncomputable def driftWithWind (rocketLocation : GeoLocation)
    (windSpeed windDirection decentRate descentDistance : ℚ) : GeoLocation :=
  if decentRate = 0 then rocketLocation
  else
    let rate := |decentRate|
    let decentDuration := descentDistance / rate
    let driftDistance := decentDuration * (windSpeed * 1.68781)
    let invertedDirection := if windDirection < 180 then windDirection + 180 else windDirection - 180
    moveAlongBearing rocketLocation (feetToMeters driftDistance) invertedDirection

/-- The interpolation scan of `weathercockAdjustment` (src/main.js lines
1320-1341, identical loop in RocketWeathercocking): find the first entry
with speed at or above the ground wind speed, move the location by the
upwind distance interpolated between it and the previous entry, and
return the similarly interpolated apogee; `-1` (location unmoved) when
the scan runs out of entries. -/
noncomputable def weathercockScan (windDirection windSpeed : ℚ) (loc : GeoLocation)
    (prev : WeathercockWindData) : List WeathercockWindData → ℚ × GeoLocation
  | [] => (-1, loc)
  | w :: rest =>
    if windSpeed ≤ w.windSpeed then
      let finalDistance := linearInterpolate windSpeed w.windSpeed prev.windSpeed
        w.upwindDistance prev.upwindDistance
      let movedLocation := moveAlongBearing loc (feetToMeters finalDistance) windDirection
      let apogeeAltitude := linearInterpolate windSpeed w.windSpeed prev.windSpeed
        w.apogee prev.apogee
      (apogeeAltitude, movedLocation)
    else weathercockScan windDirection windSpeed loc w rest

/-- `weathercockAdjustment` (src/main.js lines 1314-1343): scan the
weathercock table from index 1; `-1` with the location unmoved when no
entry's speed reaches the ground wind speed. -/
noncomputable def weathercockAdjustment (apogeeLocation : GeoLocation)
    (windDirection windSpeed : ℚ) (weathercockData : List WeathercockWindData) : ℚ × GeoLocation :=
  match weathercockData with
  | [] => (-1, apogeeLocation)
  | w0 :: rest => weathercockScan windDirection windSpeed apogeeLocation w0 rest

/-- `RocketWeathercocking.weathercockAdjustment` (src/unnamed/part_001
lines 201-253): returns the input unchanged on an empty table, converts
the ground wind speed from knots to MPH (factor 1.15078), clamps to the
first entry at or below its speed and to the last entry above its speed,
and otherwise interpolates by the same scan as the main.js version. -/
noncomputable def rwWeathercockAdjustment (apogee : ℚ)
    (weathercockData : List WeathercockWindData) (rocketLocation : GeoLocation)
    (groundWindSpeed groundWindDirection : ℚ) : ℚ × GeoLocation :=
  match weathercockData with
  | [] => (apogee, rocketLocation)
  | w0 :: rest =>
    let windSpeed := 1.15078 * groundWindSpeed
    let wLast := (w0 :: rest).getLast (by simp)
    if windSpeed ≤ w0.windSpeed then
      if 0 < w0.upwindDistance then
        (w0.apogee, moveAlongBearing rocketLocation (feetToMeters w0.upwindDistance) groundWindDirection)
      else (w0.apogee, rocketLocation)
    else if wLast.windSpeed < windSpeed then
      (wLast.apogee, moveAlongBearing rocketLocation (feetToMeters wLast.upwindDistance) groundWindDirection)
    else weathercockScan groundWindDirection windSpeed rocketLocation w0 rest

/-- `DescentData` (src/launch.js lines 276-357): one step of the descent
schedule — altitude, descent rate active at this step, and wind
speed/direction recorded for this altitude. -/
structure DescentData where
  altitude : ℚ
  descentRate : ℚ
  windSpeed : ℚ
  windDirection : ℚ
  deriving DecidableEq, Repr

/-- `LaunchPathPoint` (src/launch.js lines 132-176): an (altitude,
location) pair along the simulated flight path; the constructor stores an
independent copy of the coordinates, which the embedding renders by
holding the coordinate values themselves. -/
structure LaunchPathPoint where
  altitude : ℚ
  location : GeoLocation

/-- `LaunchSimulationData` (src/launch.js lines 179-273), restricted to
the fields the claims touch: the hour, the launch-site elevation and the
ordered flight path. -/
structure LaunchSimulationData where
  time : ℚ
  elevation : ℚ
  launchPath : List LaunchPathPoint

/-- `LaunchSimulationData.getLandingLocation` (src/launch.js lines
252-257): `none` on an empty flight path, else the last path point's
location. -/
def getLandingLocation (sim : LaunchSimulationData) : Option GeoLocation :=
  if sim.launchPath.length = 0 then none
  else (sim.launchPath.getLast?).map fun p => p.location

/-- The scan loop underlying `findCeilIndex`: `l` is the remaining suffix
of the wind data and `i` the absolute index of its first element; stop at
the first sample whose altitude reaches `rocketAltitude`, else run past
the end. -/
def findCeilAux (rocketAltitude : ℚ) : List WindAtAltitude → ℕ → ℕ
  | [], i => i
  | w :: rest, i => if rocketAltitude ≤ w.altitude then i else findCeilAux rocketAltitude rest (i + 1)

/-- The apogee-band search of `calculateLandingPlots` (src/main.js lines
1514-1519) and `driftSimulation` (src/drift_simulation.js lines 36-41):
scan indices from 1 upward, stopping at the first sample altitude at or
above `rocketAltitude`; when none is found the loop runs to the list
length (to 1 on a list shorter than two samples). -/
def findCeilIndex (windData : List WindAtAltitude) (rocketAltitude : ℚ) : ℕ :=
  findCeilAux rocketAltitude (windData.drop 1) 1

/-- One iteration of the band walk of `calculateLandingPlots` (src/main.js
lines 1542-1573) at wind index `i`: returns the descent steps pushed, the
descent rate after the iteration, and the (possibly reassigned) rocket
altitude.  A degenerate band is skipped, a lower sample exactly at the
deployment altitude is replaced by the main-deployment step, a deployment
altitude strictly inside the band gets an interpolated step inserted
before the lower sample's raw step. -/
def bandStep (windData : List WindAtAltitude) (mainDeployAltitude mainDescentRate : ℚ)
    (i : ℕ) (currentRate rocketAltitude : ℚ) : List DescentData × ℚ × ℚ :=
  let wLo := windData.getD i default
  let wHi := windData.getD (i + 1) default
  let descentDistance := wHi.altitude - wLo.altitude
  if descentDistance ≤ 0 then ([], currentRate, wLo.altitude)
  else if wLo.altitude = mainDeployAltitude then
    ([⟨mainDeployAltitude, mainDescentRate, wLo.windSpeed, wLo.windDirection⟩],
      mainDescentRate, rocketAltitude)
  else if wLo.altitude < mainDeployAltitude ∧ mainDeployAltitude < wHi.altitude then
    let p := getWindBandPercentage mainDeployAltitude windData (i : ℤ)
    let s := getAverageWindSpeed p windData (i : ℤ)
    let d := getAverageWindDirection p windData (i : ℤ)
    ([⟨mainDeployAltitude, mainDescentRate, s, d⟩,
      ⟨wLo.altitude, mainDescentRate, wLo.windSpeed, wLo.windDirection⟩],
      mainDescentRate, rocketAltitude)
  else
    ([⟨wLo.altitude, currentRate, wLo.windSpeed, wLo.windDirection⟩],
      currentRate, rocketAltitude)

/-- The full band walk (src/main.js lines 1542-1573): iterate `bandStep`
from the apogee band's floor index down to index 0, threading the current
descent rate and the mutable rocket altitude. -/
def bandWalk (windData : List WindAtAltitude) (mainDeployAltitude mainDescentRate : ℚ) :
    ℕ → ℚ → ℚ → List DescentData × ℚ × ℚ
  | 0, rate, rAlt => bandStep windData mainDeployAltitude mainDescentRate 0 rate rAlt
  | i + 1, rate, rAlt =>
    let r1 := bandStep windData mainDeployAltitude mainDescentRate (i + 1) rate rAlt
    let r2 := bandWalk windData mainDeployAltitude mainDescentRate i r1.2.1 r1.2.2
    (r1.1 ++ r2.1, r2.2)

/-- The descent schedule of `calculateLandingPlots` (src/main.js lines
1530-1573): the apogee step (partial-band averaged wind, initial rate)
followed by the band walk's steps; also returns the final rocket
altitude. -/
def buildDescentList (windData : List WindAtAltitude) (floorIndex : ℕ)
    (rocketAltitude rate0 mainDeployAltitude mainDescentRate : ℚ) : List DescentData × ℚ :=
  let p := getWindBandPercentage rocketAltitude windData (floorIndex : ℤ)
  let s := getAverageWindSpeed p windData (floorIndex : ℤ)
  let d := getAverageWindDirection p windData (floorIndex : ℤ)
  let walk := bandWalk windData mainDeployAltitude mainDescentRate floorIndex rate0 rocketAltitude
  (⟨rocketAltitude, rate0, s, d⟩ :: walk.1, walk.2.2)

/-- The displacement integration of `calculateLandingPlots` (src/main.js
lines 1595-1618): for each consecutive schedule pair, average the wind
speeds arithmetically and the directions seam-aware, drift by
`driftWithWind` with the rate carried from the previous iteration, append
the path point at the current step's altitude, then update the rate. -/
noncomputable def integrate (prev : DescentData) (currentRate : ℚ) (loc : GeoLocation) :
    List DescentData → List LaunchPathPoint
  | [] => []
  | curr :: rest =>
    let windSpeed := (curr.windSpeed + prev.windSpeed) / 2
    let descentDistance := prev.altitude - curr.altitude
    let windDirection := averageDirectionCore prev.windDirection curr.windDirection
    let movedLocation := driftWithWind loc windSpeed windDirection currentRate descentDistance
    ⟨curr.altitude, movedLocation⟩ :: integrate curr curr.descentRate movedLocation rest

/-- The accumulated drift of the integration loop: the rocket location
after applying `driftWithWind` across every consecutive schedule pair,
i.e. the final drifted landing location. -/
noncomputable def driftFold (prev : DescentData) (currentRate : ℚ) (loc : GeoLocation) :
    List DescentData → GeoLocation
  | [] => loc
  | curr :: rest =>
    let windSpeed := (curr.windSpeed + prev.windSpeed) / 2
    let descentDistance := prev.altitude - curr.altitude
    let windDirection := averageDirectionCore prev.windDirection curr.windDirection
    let movedLocation := driftWithWind loc windSpeed windDirection currentRate descentDistance
    driftFold curr curr.descentRate movedLocation rest

/-- The per-hour drift simulation of `calculateLandingPlots` (src/main.js
lines 1513-1618), starting from the possibly weathercock-adjusted apogee
altitude and location: locate the apogee band (no result when the search
fails), build the descent schedule (no result when it has fewer than two
steps), then emit the flight path — launch point at altitude 0, apogee
point, and one integrated point per remaining schedule step. -/
noncomputable def descentPhase (launchLocation rocketLocation : GeoLocation)
    (rocketAltitude : ℚ) (windData : List WindAtAltitude) (usingDualDeployment : Bool)
    (mainDeployAltitude mainDescentRate drogueDecentRate : ℚ) : Option (List LaunchPathPoint) :=
  let j := findCeilIndex windData rocketAltitude
  if j = windData.length then none
  else
    let floorIndex := j - 1
    let rate0 := if usingDualDeployment then drogueDecentRate else mainDescentRate
    let built := buildDescentList windData floorIndex rocketAltitude rate0
      mainDeployAltitude mainDescentRate
    if built.1.length < 2 then none
    else
      match built.1 with
      | [] => none
      | apogeeStep :: rest =>
        some (⟨0, launchLocation⟩ :: ⟨built.2, rocketLocation⟩ ::
          integrate apogeeStep apogeeStep.descentRate rocketLocation rest)

/-- The hour loop of `calculateLandingPlots` (src/main.js lines
1436-1622) restricted to the drift phase: each hour's wind profile is
simulated in order and an hour yielding no result is skipped
(`continue`), the batch carrying on with the remaining hours. -/
noncomputable def simulateBatch (launchLocation : GeoLocation) (rocketAltitude : ℚ)
    (usingDualDeployment : Bool) (mainDeployAltitude mainDescentRate drogueDecentRate : ℚ)
    (profiles : List (List WindAtAltitude)) : List (List LaunchPathPoint) :=
  profiles.filterMap fun wd =>
    descentPhase launchLocation launchLocation rocketAltitude wd usingDualDeployment
      mainDeployAltitude mainDescentRate drogueDecentRate

/-! ## Helper lemmas -/

/-- The seam-aware direction average of the source is exactly the
spec's `averageDirection` rule. -/
theorem averageDirectionCore_eq_spec (d0 d1 : ℚ) :
    averageDirectionCore d0 d1 = specAverageDirection d0 d1 := rfl

/-- `atan2` of a zero ordinate and nonnegative abscissa is zero. -/
theorem atan2_zero_of_nonneg {x : ℝ} (hx : 0 ≤ x) : atan2 0 x = 0 := by
  rw [atan2]
  rcases lt_or_eq_of_le hx with h | h
  · rw [if_pos h, zero_div, Real.arctan_zero]
  · rw [if_neg (by rw [← h]; exact lt_irrefl 0),
      if_neg (by rw [← h]; simp),
      if_neg (by rw [← h]; exact lt_irrefl 0),
      if_neg (by norm_num), if_neg (by norm_num)]

/-- Projecting by a zero distance is the identity on any in-range
location: the spherical forward formula returns the same latitude (via
`arcsin (sin x) = x` on `[-90°, 90°]`) and the same longitude (the
`atan2` term vanishes and the wrap is the identity on `[-180°, 180°)`). -/
theorem moveAlongBearing_zero (loc : GeoLocation) (b : ℚ)
    (hLat1 : -90 ≤ loc.latitude) (hLat2 : loc.latitude ≤ 90)
    (hLon1 : -180 ≤ loc.longitude) (hLon2 : loc.longitude < 180) :
    moveAlongBearing loc 0 b = loc := by
  obtain ⟨lat, lon⟩ := loc
  simp only at hLat1 hLat2 hLon1 hLon2
  have hpi := Real.pi_pos
  have harc : Real.arcsin (Real.sin (lat * Real.pi / 180)) = lat * Real.pi / 180 := by
    apply Real.arcsin_sin
    · rw [neg_le]
      rw [show -(lat * Real.pi / 180) = -lat * Real.pi / 180 by ring]
      calc -lat * Real.pi / 180 ≤ 90 * Real.pi / 180 := by nlinarith
      _ = Real.pi / 2 := by ring
    · calc lat * Real.pi / 180 ≤ 90 * Real.pi / 180 := by nlinarith
      _ = Real.pi / 2 := by ring
  simp only [moveAlongBearing]
  norm_num
  constructor
  · rw [harc]
    field_simp
  · rw [harc]
    rw [show (1 : ℝ) - Real.sin (lat * Real.pi / 180) * Real.sin (lat * Real.pi / 180)
        = Real.cos (lat * Real.pi / 180) ^ 2 by rw [Real.cos_sq']; ring]
    rw [atan2_zero_of_nonneg (by positivity)]
    rw [add_zero]
    have hlon : lon * Real.pi / 180 * 180 / Real.pi = lon := by field_simp
    rw [hlon, wrapLongitude]
    have hfloor : ⌊(lon + 180) / 360⌋ = 0 := by
      rw [Int.floor_eq_zero_iff]
      constructor
      · exact div_nonneg (by linarith) (by norm_num)
      · exact (div_lt_one (by norm_num)).2 (by linarith)
    rw [hfloor]
    norm_num

/-- A nonnegative JavaScript index reads through `getD`. -/
theorem jsGet_natCast (windData : List WindAtAltitude) (i : ℕ) :
    jsGet windData (i : ℤ) = windData.getD i default := by
  simp [jsGet]

/-- An in-bounds `getD` read is a member of the list. -/
theorem getD_mem {windData : List WindAtAltitude} {i : ℕ} (h : i < windData.length) :
    windData.getD i default ∈ windData := by
  rw [List.getD_eq_getElem?_getD, List.getElem?_eq_getElem h]
  exact List.getElem_mem h

/-- A band fraction queried inside a positive-height band lies in
`[0,1]`. -/
theorem getWindBandPercentage_valid {alt : ℚ} {windData : List WindAtAltitude} {i : ℕ}
    (hlen : i + 1 < windData.length)
    (hfa : (windData.getD i default).altitude ≤ alt)
    (hca : alt ≤ (windData.getD (i + 1) default).altitude)
    (hlt : (windData.getD i default).altitude < (windData.getD (i + 1) default).altitude) :
    0 ≤ getWindBandPercentage alt windData (i : ℤ) ∧
      getWindBandPercentage alt windData (i : ℤ) ≤ 1 := by
  have h1 : ¬((i : ℤ) < 0 ∨ (windData.length : ℤ) ≤ (i : ℤ) + 1) := by
    push_neg
    constructor
    · exact Int.ofNat_nonneg i
    · exact_mod_cast hlen
  have hgf : jsGet windData (i : ℤ) = windData.getD i default := jsGet_natCast _ _
  have hgc : jsGet windData ((i : ℤ) + 1) = windData.getD (i + 1) default := by
    rw [show ((i : ℤ) + 1) = ((i + 1 : ℕ) : ℤ) by push_cast; ring, jsGet_natCast]
  have h2 : ¬(alt < (jsGet windData (i : ℤ)).altitude ∨
      (jsGet windData ((i : ℤ) + 1)).altitude < alt) := by
    push_neg
    rw [hgf, hgc]
    exact ⟨hfa, hca⟩
  have h3 : ¬(|(jsGet windData ((i : ℤ) + 1)).altitude - (jsGet windData (i : ℤ)).altitude| = 0) := by
    rw [hgf, hgc, abs_eq_zero, sub_eq_zero]
    exact fun h => absurd h.symm (ne_of_lt hlt)
  rw [getWindBandPercentage, if_neg h1, if_neg h2, if_neg h3, hgf, hgc]
  constructor
  · exact div_nonneg (abs_nonneg _) (abs_nonneg _)
  · rw [div_le_one (by rw [abs_of_nonneg (by linarith)]; linarith)]
    rw [abs_of_nonneg (by linarith), abs_of_nonneg (by linarith)]
    linarith

/-- Evaluation of `getAverageWindSpeed` when its guards pass. -/
theorem getAverageWindSpeed_eval {p : ℚ} {windData : List WindAtAltitude} {i : ℕ}
    (hp0 : 0 ≤ p) (hp1 : p ≤ 1) (hlen : i + 1 < windData.length) :
    getAverageWindSpeed p windData (i : ℤ) =
      ((windData.getD i default).windSpeed +
        ((windData.getD i default).windSpeed +
          p * ((windData.getD (i + 1) default).windSpeed -
            (windData.getD i default).windSpeed))) / 2 := by
  have h1 : ¬(p < 0 ∨ 1 < p) := by push_neg; exact ⟨hp0, hp1⟩
  have h2 : ¬((i : ℤ) < 0 ∨ (windData.length : ℤ) ≤ (i : ℤ) + 1) := by
    push_neg
    exact ⟨Int.ofNat_nonneg i, by exact_mod_cast hlen⟩
  rw [getAverageWindSpeed, if_neg h1, if_neg h2, jsGet_natCast,
    show ((i : ℤ) + 1) = ((i + 1 : ℕ) : ℤ) by push_cast; ring, jsGet_natCast]

/-- On a zero averaged wind speed `driftWithWind` leaves an in-range
location unchanged: either the rate guard fires or the drift distance is
zero. -/
theorem driftWithWind_zero_speed (loc : GeoLocation)
    (hLat1 : -90 ≤ loc.latitude) (hLat2 : loc.latitude ≤ 90)
    (hLon1 : -180 ≤ loc.longitude) (hLon2 : loc.longitude < 180) (d rate dist : ℚ) :
    driftWithWind loc 0 d rate dist = loc := by
  by_cases h : rate = 0
  · simp [driftWithWind, h]
  · simp only [driftWithWind, if_neg h]
    rw [show dist / |rate| * (0 * 1.68781) = 0 by ring,
      show feetToMeters 0 = 0 by norm_num [feetToMeters]]
    exact moveAlongBearing_zero loc _ hLat1 hLat2 hLon1 hLon2

/-- Every step the band walk emits carries a zero wind speed when the
profile's samples all do. -/
theorem bandWalk_speeds_zero {windData : List WindAtAltitude} {da mr : ℚ}
    (hz : ∀ w ∈ windData, w.windSpeed = 0) :
    ∀ (i : ℕ), i + 1 < windData.length → ∀ (rate rAlt : ℚ),
      ∀ s ∈ (bandWalk windData da mr i rate rAlt).1, s.windSpeed = 0 := by
  have hstep : ∀ (i : ℕ), i + 1 < windData.length → ∀ (rate rAlt : ℚ),
      ∀ s ∈ (bandStep windData da mr i rate rAlt).1, s.windSpeed = 0 := by
    intro i hlen rate rAlt s hs
    have hmemLo : windData.getD i default ∈ windData := getD_mem (by omega)
    have hmemHi : windData.getD (i + 1) default ∈ windData := getD_mem hlen
    simp only [bandStep] at hs
    split_ifs at hs with h1 h2 h3
    · exact absurd hs (List.not_mem_nil s)
    · rw [List.mem_singleton] at hs
      rw [hs]
      exact hz _ hmemLo
    · rw [List.mem_cons, List.mem_singleton] at hs
      rcases hs with hs | hs
      · rw [hs]
        have hp := getWindBandPercentage_valid hlen (le_of_lt h3.1) (le_of_lt h3.2)
          (lt_trans h3.1 h3.2)
        show getAverageWindSpeed (getWindBandPercentage da windData (i : ℤ)) windData (i : ℤ) = 0
        rw [getAverageWindSpeed_eval hp.1 hp.2 hlen, hz _ hmemLo, hz _ hmemHi]
        ring
      · rw [hs]
        exact hz _ hmemLo
    · rw [List.mem_singleton] at hs
      rw [hs]
      exact hz _ hmemLo
  intro i
  induction i with
  | zero => exact hstep 0
  | succ n ih =>
    intro hlen rate rAlt s hs
    rw [bandWalk] at hs
    simp only [List.mem_append] at hs
    rcases hs with hs | hs
    · exact hstep (n + 1) hlen rate rAlt s hs
    · exact ih (by omega) _ _ s hs

/-- The integration loop never moves an in-range location when every
schedule step's wind speed is zero. -/
theorem integrate_zero_speeds (loc : GeoLocation)
    (hLat1 : -90 ≤ loc.latitude) (hLat2 : loc.latitude ≤ 90)
    (hLon1 : -180 ≤ loc.longitude) (hLon2 : loc.longitude < 180) :
    ∀ (steps : List DescentData) (prev : DescentData) (rate : ℚ),
      prev.windSpeed = 0 → (∀ s ∈ steps, s.windSpeed = 0) →
      ∀ pt ∈ integrate prev rate loc steps, pt.location = loc := by
  intro steps
  induction steps with
  | nil => intro prev rate _ _ pt hpt; simp [integrate] at hpt
  | cons curr rest ih =>
    intro prev rate hprev hall pt hpt
    have hcurr : curr.windSpeed = 0 := hall curr (List.mem_cons_self curr rest)
    have hws : (curr.windSpeed + prev.windSpeed) / 2 = 0 := by rw [hcurr, hprev]; ring
    simp only [integrate] at hpt
    rw [hws] at hpt
    simp only [driftWithWind_zero_speed loc hLat1 hLat2 hLon1 hLon2] at hpt
    rcases List.mem_cons.1 hpt with h | h
    · rw [h]
    · exact ih curr curr.descentRate hcurr
        (fun s hs => hall s (List.mem_cons_of_mem curr hs)) pt h

/-- The last point of a flight path all of whose points sit at one
location sits at that location. -/
theorem getLast_loc_of_all {l : List LaunchPathPoint} {c : GeoLocation} (hne : l ≠ [])
    (hall : ∀ pt ∈ l, pt.location = c) :
    (l.getLast?).map (fun pt => pt.location) = some c := by
  rw [List.getLast?_eq_getLast l hne]
  simp only [Option.map_some']
  rw [hall _ (List.getLast_mem hne)]

/-- Strictly ascending altitudes, read through `getD`. -/
theorem sorted_getD_lt {windData : List WindAtAltitude}
    (hSorted : windData.Pairwise (fun u v => u.altitude < v.altitude))
    {i j : ℕ} (hij : i < j) (hj : j < windData.length) :
    (windData.getD i default).altitude < (windData.getD j default).altitude := by
  have hi : i < windData.length := lt_trans hij hj
  rw [List.getD_eq_getElem?_getD, List.getElem?_eq_getElem hi,
    List.getD_eq_getElem?_getD, List.getElem?_eq_getElem hj]
  exact (List.pairwise_iff_get.1 hSorted) ⟨i, hi⟩ ⟨j, hj⟩ hij

/-- The band-walk iteration when the lower sample sits exactly at the
deployment altitude. -/
theorem bandStep_deploy (windData : List WindAtAltitude) (da mr : ℚ) (i : ℕ) (rate rAlt : ℚ)
    (h0 : ¬((windData.getD (i + 1) default).altitude - (windData.getD i default).altitude ≤ 0))
    (h1 : (windData.getD i default).altitude = da) :
    bandStep windData da mr i rate rAlt =
      ([⟨da, mr, (windData.getD i default).windSpeed, (windData.getD i default).windDirection⟩],
        mr, rAlt) := by
  rw [bandStep, if_neg h0, if_pos h1]

/-- The band-walk iteration when neither deployment branch fires. -/
theorem bandStep_raw (windData : List WindAtAltitude) (da mr : ℚ) (i : ℕ) (rate rAlt : ℚ)
    (h0 : ¬((windData.getD (i + 1) default).altitude - (windData.getD i default).altitude ≤ 0))
    (h1 : (windData.getD i default).altitude ≠ da)
    (h2 : ¬((windData.getD i default).altitude < da ∧ da < (windData.getD (i + 1) default).altitude)) :
    bandStep windData da mr i rate rAlt =
      ([⟨(windData.getD i default).altitude, rate,
        (windData.getD i default).windSpeed, (windData.getD i default).windDirection⟩],
        rate, rAlt) := by
  rw [bandStep, if_neg h0, if_neg h1, if_neg h2]

/-- A band-walk iteration entered at the main rate emits only main-rate
steps and leaves the rate at main. -/
theorem bandStep_rate_main (windData : List WindAtAltitude) (da mr : ℚ) (i : ℕ) (rAlt : ℚ) :
    (∀ s ∈ (bandStep windData da mr i mr rAlt).1, s.descentRate = mr) ∧
    (bandStep windData da mr i mr rAlt).2.1 = mr := by
  simp only [bandStep]
  split_ifs with h0 h1 h2
  · exact ⟨fun s hs => absurd hs (List.not_mem_nil s), rfl⟩
  · refine ⟨fun s hs => ?_, rfl⟩
    rw [List.mem_singleton] at hs
    subst hs
    rfl
  · refine ⟨fun s hs => ?_, rfl⟩
    rw [List.mem_cons, List.mem_singleton] at hs
    rcases hs with hs | hs <;> subst hs <;> rfl
  · refine ⟨fun s hs => ?_, rfl⟩
    rw [List.mem_singleton] at hs
    subst hs
    rfl

/-- A band walk entered at the main rate emits only main-rate steps. -/
theorem bandWalk_rate_main {windData : List WindAtAltitude} {da mr : ℚ} :
    ∀ (i : ℕ) (rAlt : ℚ),
      (∀ s ∈ (bandWalk windData da mr i mr rAlt).1, s.descentRate = mr) ∧
      (bandWalk windData da mr i mr rAlt).2.1 = mr := by
  intro i
  induction i with
  | zero => intro rAlt; exact bandStep_rate_main windData da mr 0 rAlt
  | succ n ih =>
    intro rAlt
    have hstep := bandStep_rate_main windData da mr (n + 1) rAlt
    simp only [bandWalk]
    rw [hstep.2]
    constructor
    · intro s hs
      rw [List.mem_append] at hs
      rcases hs with hs | hs
      · exact hstep.1 s hs
      · exact (ih _).1 s hs
    · exact (ih _).2

/-- Iterations strictly below the deployment sample emit only steps
strictly below the deployment altitude. -/
theorem bandStep_alt_below {windData : List WindAtAltitude} {da mr : ℚ}
    (hSorted : windData.Pairwise (fun u v => u.altitude < v.altitude))
    {k : ℕ} (hk : k < windData.length) (hda : (windData.getD k default).altitude = da)
    {i : ℕ} (hik : i < k) {rate rAlt : ℚ} :
    ∀ s ∈ (bandStep windData da mr i rate rAlt).1, s.altitude < da := by
  have hlo : (windData.getD i default).altitude < da := by
    rw [← hda]
    exact sorted_getD_lt hSorted hik hk
  have hhi : (windData.getD (i + 1) default).altitude ≤ da := by
    rcases Nat.lt_or_ge (i + 1) k with h | h
    · rw [← hda]
      exact le_of_lt (sorted_getD_lt hSorted h hk)
    · have : i + 1 = k := by omega
      rw [← hda, this]
  intro s hs
  simp only [bandStep] at hs
  split_ifs at hs with h0 h1 h2
  · exact absurd hs (List.not_mem_nil s)
  · exact absurd h1 (ne_of_lt hlo)
  · exact absurd h2.2 (not_lt.2 hhi)
  · rw [List.mem_singleton] at hs
    subst hs
    exact hlo

/-- The walk from an index strictly below the deployment sample emits
only steps strictly below the deployment altitude. -/
theorem bandWalk_alt_below {windData : List WindAtAltitude} {da mr : ℚ}
    (hSorted : windData.Pairwise (fun u v => u.altitude < v.altitude))
    {k : ℕ} (hk : k < windData.length) (hda : (windData.getD k default).altitude = da) :
    ∀ (i : ℕ), i < k → ∀ (rate rAlt : ℚ),
      ∀ s ∈ (bandWalk windData da mr i rate rAlt).1, s.altitude < da := by
  intro i
  induction i with
  | zero =>
    intro hik rate rAlt
    exact bandStep_alt_below hSorted hk hda hik
  | succ n ih =>
    intro hik rate rAlt s hs
    simp only [bandWalk] at hs
    rw [List.mem_append] at hs
    rcases hs with hs | hs
    · exact bandStep_alt_below hSorted hk hda hik s hs
    · exact ih (by omega) _ _ s hs

/-- The walk from any index at or above the deployment sample emits
exactly one step at the deployment altitude (the main-rate step carrying
that sample's raw wind values), and every emitted step strictly below
the deployment altitude carries the main rate. -/
theorem bandWalk_deploy_exact {windData : List WindAtAltitude} {da : ℚ} (mr : ℚ)
    (hSorted : windData.Pairwise (fun u v => u.altitude < v.altitude))
    {k : ℕ} (hk1 : k + 1 < windData.length)
    (hda : (windData.getD k default).altitude = da) :
    ∀ (i : ℕ), k ≤ i → i + 1 < windData.length → ∀ (rate rAlt : ℚ),
      ((bandWalk windData da mr i rate rAlt).1.filter (fun s => s.altitude = da)) =
        [⟨da, mr, (windData.getD k default).windSpeed, (windData.getD k default).windDirection⟩] ∧
      ∀ s ∈ (bandWalk windData da mr i rate rAlt).1, s.altitude < da → s.descentRate = mr := by
  intro i
  induction i with
  | zero =>
    intro hki hlen rate rAlt
    have hk0 : k = 0 := by omega
    subst hk0
    have h0 : ¬((windData.getD (0 + 1) default).altitude - (windData.getD 0 default).altitude ≤ 0) := by
      have := sorted_getD_lt hSorted (by omega : 0 < 0 + 1) hlen
      push_neg
      linarith
    have hb := bandStep_deploy windData da mr 0 rate rAlt h0 hda
    constructor
    · show ((bandWalk windData da mr 0 rate rAlt).1.filter (fun s => s.altitude = da)) = _
      rw [show bandWalk windData da mr 0 rate rAlt = bandStep windData da mr 0 rate rAlt from rfl, hb]
      simp [List.filter]
    · intro s hs
      rw [show bandWalk windData da mr 0 rate rAlt = bandStep windData da mr 0 rate rAlt from rfl,
        hb, List.mem_singleton] at hs
      subst hs
      intro habs
      exact absurd habs (lt_irrefl da)
  | succ n ih =>
    intro hki hlen rate rAlt
    rcases Nat.lt_or_ge n k with hcase | hcase
    · -- the deploy band is this iteration
      have hkeq : k = n + 1 := by omega
      subst hkeq
      have h0 : ¬((windData.getD (n + 1 + 1) default).altitude -
          (windData.getD (n + 1) default).altitude ≤ 0) := by
        have := sorted_getD_lt hSorted (by omega : n + 1 < n + 1 + 1) hlen
        push_neg
        linarith
      have hb := bandStep_deploy windData da mr (n + 1) rate rAlt h0 hda
      have hnil : ((bandWalk windData da mr n mr rAlt).1.filter (fun s => s.altitude = da)) = [] := by
        refine List.filter_eq_nil_iff.2 (fun s hs => ?_)
        simp only [decide_eq_true_eq]
        exact ne_of_lt (bandWalk_alt_below hSorted (by omega) hda n (by omega) mr rAlt s hs)
      constructor
      · simp only [bandWalk]
        rw [hb]
        simp only [List.filter_append]
        rw [hnil]
        simp [List.filter]
      · intro s hs
        simp only [bandWalk] at hs
        rw [hb] at hs
        simp only [List.mem_append, List.mem_singleton] at hs
        rcases hs with hs | hs
        · subst hs
          intro habs
          exact absurd habs (lt_irrefl da)
        · intro _
          exact (bandWalk_rate_main n _).1 s hs
    · -- this band is above the deploy band
      have hgt : da < (windData.getD (n + 1) default).altitude := by
        rw [← hda]
        exact sorted_getD_lt hSorted (by omega) (by omega)
      have h0 : ¬((windData.getD (n + 1 + 1) default).altitude -
          (windData.getD (n + 1) default).altitude ≤ 0) := by
        have := sorted_getD_lt hSorted (by omega : n + 1 < n + 1 + 1) hlen
        push_neg
        linarith
      have hb := bandStep_raw windData da mr (n + 1) rate rAlt h0
        (ne_of_gt hgt) (fun habs => absurd habs.1 (not_lt.2 (le_of_lt hgt)))
      have hrec := ih hcase (by omega) rate rAlt
      constructor
      · simp only [bandWalk]
        rw [hb]
        simp only [List.filter_append]
        have hone : (([⟨(windData.getD (n + 1) default).altitude, rate,
            (windData.getD (n + 1) default).windSpeed,
            (windData.getD (n + 1) default).windDirection⟩] : List DescentData).filter
              (fun s => s.altitude = da)) = [] := by
          refine List.filter_eq_nil_iff.2 (fun s hs => ?_)
          rw [List.mem_singleton] at hs
          subst hs
          simp only [decide_eq_true_eq]
          exact ne_of_gt hgt
        rw [hone, List.nil_append]
        exact hrec.1
      · intro s hs
        simp only [bandWalk] at hs
        rw [hb] at hs
        simp only [List.mem_append, List.mem_singleton] at hs
        rcases hs with hs | hs
        · subst hs
          intro habs
          exact absurd habs (not_lt.2 (le_of_lt hgt))
        · exact hrec.2 s hs

/-- The last element of an appended list with a nonempty right part. -/
theorem getLast?_append_right {α : Type} {l1 l2 : List α} (h : l2 ≠ []) :
    (l1 ++ l2).getLast? = l2.getLast? := by
  rw [List.getLast?_append]
  rw [List.getLast?_eq_getLast l2 h]
  rfl

/-- The integration loop emits one point per schedule step, at that
step's altitude. -/
theorem integrate_map_altitude :
    ∀ (steps : List DescentData) (prev : DescentData) (rate : ℚ) (loc : GeoLocation),
      (integrate prev rate loc steps).map (fun pt => pt.altitude) =
        steps.map (fun s => s.altitude) := by
  intro steps
  induction steps with
  | nil => intro prev rate loc; simp [integrate]
  | cons curr rest ih =>
    intro prev rate loc
    simp only [integrate, List.map_cons]
    rw [ih]

/-- The last integrated point sits at the fully accumulated drift
location. -/
theorem integrate_getLast_location :
    ∀ (steps : List DescentData) (prev : DescentData) (rate : ℚ) (loc : GeoLocation),
      steps ≠ [] →
      ((integrate prev rate loc steps).getLast?).map (fun pt => pt.location) =
        some (driftFold prev rate loc steps) := by
  intro steps
  induction steps with
  | nil => intro prev rate loc h; exact absurd rfl h
  | cons curr rest ih =>
    intro prev rate loc _
    cases rest with
    | nil => simp [integrate, driftFold]
    | cons r1 r2 =>
      simp only [integrate, driftFold]
      rw [List.getLast?_cons_cons]
      have := ih curr curr.descentRate
        (driftWithWind loc ((curr.windSpeed + prev.windSpeed) / 2)
          (averageDirectionCore prev.windDirection curr.windDirection) rate
          (prev.altitude - curr.altitude)) (by simp)
      simp only [integrate, driftFold] at this
      exact this

/-- On a sorted profile one band-walk iteration emits a nonempty,
strictly descending run of steps bounded by the band ceiling, ending at
the lower sample, and preserves the rocket altitude. -/
theorem bandStep_ordered {windData : List WindAtAltitude} (da mr : ℚ)
    (hSorted : windData.Pairwise (fun u v => u.altitude < v.altitude))
    (i : ℕ) (hlen : i + 1 < windData.length) (rate rAlt : ℚ) :
    (bandStep windData da mr i rate rAlt).1 ≠ [] ∧
    List.Chain' (fun u v => v.altitude < u.altitude) (bandStep windData da mr i rate rAlt).1 ∧
    (∀ s ∈ (bandStep windData da mr i rate rAlt).1,
      s.altitude < (windData.getD (i + 1) default).altitude ∧
      (s.altitude ≤ (windData.getD i default).altitude ∨ s.altitude = da)) ∧
    (∀ s, ((bandStep windData da mr i rate rAlt).1).getLast? = some s →
      s.altitude = (windData.getD i default).altitude) ∧
    (bandStep windData da mr i rate rAlt).2.2 = rAlt := by
  have hstep : (windData.getD i default).altitude < (windData.getD (i + 1) default).altitude :=
    sorted_getD_lt hSorted (by omega) hlen
  have h0 : ¬((windData.getD (i + 1) default).altitude - (windData.getD i default).altitude ≤ 0) := by
    push_neg
    linarith
  simp only [bandStep, if_neg h0]
  split_ifs with h1 h2
  · refine ⟨by simp, by simp, ?_, ?_, rfl⟩
    · intro s hs
      rw [List.mem_singleton] at hs
      subst hs
      exact ⟨by rw [← h1]; exact hstep, Or.inl (by rw [← h1])⟩
    · intro s hs
      simp only [List.getLast?_singleton, Option.some_inj] at hs
      subst hs
      exact h1.symm
  · refine ⟨by simp, ?_, ?_, ?_, rfl⟩
    · exact List.chain'_pair.2 h2.1
    · intro s hs
      rw [List.mem_cons, List.mem_singleton] at hs
      rcases hs with hs | hs <;> subst hs
      · exact ⟨h2.2, Or.inr rfl⟩
      · exact ⟨hstep, Or.inl le_rfl⟩
    · intro s hs
      simp only [List.getLast?_cons_cons, List.getLast?_singleton, Option.some_inj] at hs
      subst hs
      rfl
  · refine ⟨by simp, by simp, ?_, ?_, rfl⟩
    · intro s hs
      rw [List.mem_singleton] at hs
      subst hs
      exact ⟨hstep, Or.inl le_rfl⟩
    · intro s hs
      simp only [List.getLast?_singleton, Option.some_inj] at hs
      subst hs
      rfl

/-- On a sorted profile the band walk emits a nonempty strictly
descending schedule below the band ceiling whose last step sits at the
lowest sample, and it never reassigns the rocket altitude. -/
theorem bandWalk_ordered {windData : List WindAtAltitude} (da mr : ℚ)
    (hSorted : windData.Pairwise (fun u v => u.altitude < v.altitude)) :
    ∀ (i : ℕ), i + 1 < windData.length → ∀ (rate rAlt : ℚ),
      (bandWalk windData da mr i rate rAlt).1 ≠ [] ∧
      List.Chain' (fun u v => v.altitude < u.altitude) (bandWalk windData da mr i rate rAlt).1 ∧
      (∀ s ∈ (bandWalk windData da mr i rate rAlt).1,
        s.altitude < (windData.getD (i + 1) default).altitude ∧
        (s.altitude ≤ (windData.getD i default).altitude ∨ s.altitude = da)) ∧
      (∀ s, ((bandWalk windData da mr i rate rAlt).1).getLast? = some s →
        s.altitude = (windData.getD 0 default).altitude) ∧
      (bandWalk windData da mr i rate rAlt).2.2 = rAlt := by
  intro i
  induction i with
  | zero =>
    intro hlen rate rAlt
    exact bandStep_ordered da mr hSorted 0 hlen rate rAlt
  | succ n ih =>
    intro hlen rate rAlt
    have hs := bandStep_ordered da mr hSorted (n + 1) hlen rate rAlt
    have hrec := ih (by omega) (bandStep windData da mr (n + 1) rate rAlt).2.1
      (bandStep windData da mr (n + 1) rate rAlt).2.2
    have hstepalt : (windData.getD (n + 1) default).altitude <
        (windData.getD (n + 1 + 1) default).altitude :=
      sorted_getD_lt hSorted (by omega) hlen
    simp only [bandWalk]
    refine ⟨?_, ?_, ?_, ?_, ?_⟩
    · simp only [ne_eq, List.append_eq_nil]
      intro ⟨h1, _⟩
      exact hs.1 h1
    · rw [List.chain'_append]
      refine ⟨hs.2.1, hrec.2.1, ?_⟩
      intro x hx y hy
      have hxalt := hs.2.2.2.1 x hx
      have hyalt := (hrec.2.2.1 y (List.mem_of_mem_head? hy)).1
      rw [hxalt]
      exact hyalt
    · intro s hsmem
      rw [List.mem_append] at hsmem
      rcases hsmem with hsmem | hsmem
      · exact hs.2.2.1 s hsmem
      · have := hrec.2.2.1 s hsmem
        refine ⟨lt_trans this.1 hstepalt, ?_⟩
        rcases this.2 with h | h
        · exact Or.inl (le_trans h (le_of_lt (sorted_getD_lt hSorted (by omega) (by omega))))
        · exact Or.inr h
    · intro s hsl
      rw [getLast?_append_right hrec.1] at hsl
      exact hrec.2.2.2.1 s hsl
    · exact hrec.2.2.2.2.trans hs.2.2.2.2

/-- The last element of a cons with a nonempty tail. -/
theorem getLast?_cons_ne {α : Type} {l : List α} (a : α) (h : l ≠ []) :
    (a :: l).getLast? = l.getLast? := by
  rw [← List.singleton_append, getLast?_append_right h]

/-- The scan loop never moves backward. -/
theorem findCeilAux_ge (a : ℚ) : ∀ (l : List WindAtAltitude) (i : ℕ), i ≤ findCeilAux a l i := by
  intro l
  induction l with
  | nil => intro i; simp [findCeilAux]
  | cons w rest ih =>
    intro i
    rw [findCeilAux]
    by_cases h : a ≤ w.altitude
    · simp [h]
    · rw [if_neg h]
      exact le_trans (Nat.le_succ i) (ih (i + 1))

/-- The scan loop stops no later than one past the end. -/
theorem findCeilAux_le (a : ℚ) : ∀ (l : List WindAtAltitude) (i : ℕ),
    findCeilAux a l i ≤ i + l.length := by
  intro l
  induction l with
  | nil => intro i; simp [findCeilAux]
  | cons w rest ih =>
    intro i
    rw [findCeilAux]
    by_cases h : a ≤ w.altitude
    · simp [h]
    · rw [if_neg h]
      calc findCeilAux a rest (i + 1) ≤ (i + 1) + rest.length := ih (i + 1)
        _ = i + (w :: rest).length := by simp [List.length_cons]; omega

/-- When every suffix altitude is below the target the scan runs to the
end. -/
theorem findCeilAux_all (a : ℚ) : ∀ (l : List WindAtAltitude) (i : ℕ),
    (∀ w ∈ l, w.altitude < a) → findCeilAux a l i = i + l.length := by
  intro l
  induction l with
  | nil => intro i _; simp [findCeilAux]
  | cons w rest ih =>
    intro i hall
    rw [findCeilAux, if_neg (not_le.2 (hall w (List.mem_cons_self w rest)))]
    rw [ih (i + 1) (fun w' hw' => hall w' (List.mem_cons_of_mem w hw'))]
    simp [List.length_cons]
    omega

/-- Characterization of a successful scan: either the loop runs past the
end, or it stops at the first suffix position whose altitude reaches the
target. -/
theorem findCeilAux_spec (a : ℚ) : ∀ (l : List WindAtAltitude) (i : ℕ),
    findCeilAux a l i = i + l.length ∨
    ∃ k, k < l.length ∧ findCeilAux a l i = i + k ∧
      (∀ w, l[k]? = some w → a ≤ w.altitude) ∧
      ∀ m < k, ∀ w, l[m]? = some w → w.altitude < a := by
  intro l
  induction l with
  | nil => intro i; left; simp [findCeilAux]
  | cons w rest ih =>
    intro i
    rw [findCeilAux]
    by_cases h : a ≤ w.altitude
    · right
      refine ⟨0, by simp, by simp [h], ?_, by omega⟩
      intro w' hw'
      simp at hw'
      exact hw' ▸ h
    · rw [if_neg h]
      rcases ih (i + 1) with hend | ⟨k, hk, heq, hka, hmlt⟩
      · left
        rw [hend]
        simp [List.length_cons]
        omega
      · right
        refine ⟨k + 1, by simp; omega, by rw [heq]; omega, ?_, ?_⟩
        · intro w' hw'
          exact hka w' (by simpa using hw')
        · intro m hm w' hw'
          cases m with
          | zero =>
            simp at hw'
            exact hw' ▸ not_le.1 h
          | succ m' =>
            exact hmlt m' (by omega) w' (by simpa using hw')

/-- In an altitude-sorted wind list every element's altitude is bounded
by the last element's. -/
theorem sorted_le_getLast {windData : List WindAtAltitude}
    (hSorted : windData.Pairwise (fun u v => u.altitude < v.altitude))
    {w wl : WindAtAltitude} (hw : w ∈ windData) (hl : windData.getLast? = some wl) :
    w.altitude ≤ wl.altitude := by
  induction windData with
  | nil => cases hw
  | cons x rest ih =>
    cases rest with
    | nil =>
      simp at hw hl
      rw [hw, ← hl]
    | cons y rest' =>
      rw [List.getLast?_cons_cons] at hl
      rcases List.mem_cons.1 hw with rfl | hw'
      · have hy : wl ∈ y :: rest' := by
          obtain ⟨hne, heq⟩ := List.mem_getLast?_eq_getLast (by rw [hl]; rfl)
          rw [heq]
          exact List.getLast_mem hne
        exact le_of_lt (List.rel_of_pairwise_cons hSorted hy)
      · exact ih (List.Pairwise.sublist (List.sublist_cons_self x (y :: rest')) hSorted) hw' hl


/-- C1: for every band-floor direction `d0` and interpolated target
direction, `getAverageWindDirection` returns the spec's seam-aware rule
(`(d0+d1)/2` when `|d0-d1| < 180`, else `((d0+d1)-360)/2` plus 360 if
negative); the inline copy used by the integration loops computes the
same rule; averaging 350 and 10 yields 0 and averaging 90 and 110
yields 100. -/
theorem averageWindDirection_matches_spec :
    (∀ (p : ℚ) (windData : List WindAtAltitude) (i : ℤ),
      0 ≤ p → p ≤ 1 → 0 ≤ i → i + 1 < (windData.length : ℤ) →
      getAverageWindDirection p windData i =
        specAverageDirection (jsGet windData i).windDirection
          ((jsGet windData i).windDirection +
            p * ((jsGet windData (i + 1)).windDirection - (jsGet windData i).windDirection))) ∧
    (∀ d0 d1 : ℚ, averageDirectionCore d0 d1 = specAverageDirection d0 d1) ∧
    getAverageWindDirection 1 [⟨0, 0, 350⟩, ⟨1, 0, 10⟩] 0 = 0 ∧
    getAverageWindDirection 1 [⟨0, 0, 90⟩, ⟨1, 0, 110⟩] 0 = 100 := by
  refine ⟨?_, fun d0 d1 => rfl, ?_, ?_⟩
  · intro p windData i hp0 hp1 hi hlen
    have h1 : ¬(p < 0 ∨ 1 < p) := by push_neg; exact ⟨hp0, hp1⟩
    have h2 : ¬(i < 0 ∨ (windData.length : ℤ) ≤ i + 1) := by push_neg; exact ⟨hi, hlen⟩
    rw [getAverageWindDirection, if_neg h1, if_neg h2]
    rfl
  · norm_num [getAverageWindDirection, averageDirectionCore, jsGet]
  · norm_num [getAverageWindDirection, averageDirectionCore, jsGet]

/-- Witness for C1 at a concrete input. -/
theorem averageWindDirection_matches_spec_witness :
    getAverageWindDirection 1 [⟨0, 0, 350⟩, ⟨1, 0, 10⟩] 0 =
      specAverageDirection 350 (350 + 1 * (10 - 350)) := by
  have h := averageWindDirection_matches_spec.1 1 [⟨0, 0, 350⟩, ⟨1, 0, 10⟩] 0
    (by norm_num) (by norm_num) (by norm_num) (by norm_num)
  simpa [jsGet] using h

/-- C6: for every band with floor speed `s0`, ceiling speed `s1` and band
fraction `p` in `[0,1]`, `getAverageWindSpeed` returns the half-trapezoid
average `(s0 + (s0 + p*(s1-s0)))/2`, which differs from the arithmetic
mean of the two band endpoints (witnessed at `p = 0`, `s0 = 0`,
`s1 = 10`). -/
theorem averageWindSpeed_half_trapezoid :
    (∀ (p : ℚ) (windData : List WindAtAltitude) (i : ℤ),
      0 ≤ p → p ≤ 1 → 0 ≤ i → i + 1 < (windData.length : ℤ) →
      getAverageWindSpeed p windData i =
        ((jsGet windData i).windSpeed +
          ((jsGet windData i).windSpeed +
            p * ((jsGet windData (i + 1)).windSpeed - (jsGet windData i).windSpeed))) / 2) ∧
    getAverageWindSpeed 0 [⟨0, 0, 0⟩, ⟨100, 10, 0⟩] 0 = 0 ∧
    ((0 : ℚ) + 10) / 2 ≠ 0 := by
  refine ⟨?_, ?_, by norm_num⟩
  · intro p windData i hp0 hp1 hi hlen
    have h1 : ¬(p < 0 ∨ 1 < p) := by push_neg; exact ⟨hp0, hp1⟩
    have h2 : ¬(i < 0 ∨ (windData.length : ℤ) ≤ i + 1) := by push_neg; exact ⟨hi, hlen⟩
    rw [getAverageWindSpeed, if_neg h1, if_neg h2]
  · norm_num [getAverageWindSpeed, jsGet]

/-- Witness for C6 at a concrete input. -/
theorem averageWindSpeed_half_trapezoid_witness :
    getAverageWindSpeed (1 / 2) [⟨0, 4, 0⟩, ⟨100, 8, 0⟩] 0 = (4 + (4 + 1 / 2 * (8 - 4))) / 2 := by
  have h := averageWindSpeed_half_trapezoid.1 (1 / 2) [⟨0, 4, 0⟩, ⟨100, 8, 0⟩] 0
    (by norm_num) (by norm_num) (by norm_num) (by norm_num)
  simpa [jsGet] using h

/-- C8: the band-fraction query returns the sentinel `-1` exactly on an
out-of-bounds floor index, an altitude outside the band's
floor-to-ceiling range, or a zero-height band; otherwise it returns
`(altitude - floor) / (ceiling - floor)`, which lies in `[0,1]`. -/
theorem windBandPercentage_sentinel :
    ∀ (alt : ℚ) (windData : List WindAtAltitude) (i : ℤ),
      (getWindBandPercentage alt windData i = -1 ↔
        (i < 0 ∨ (windData.length : ℤ) ≤ i + 1 ∨ alt < (jsGet windData i).altitude ∨
          (jsGet windData (i + 1)).altitude < alt ∨
          (jsGet windData i).altitude = (jsGet windData (i + 1)).altitude)) ∧
      (0 ≤ i → i + 1 < (windData.length : ℤ) →
        (jsGet windData i).altitude ≤ alt → alt ≤ (jsGet windData (i + 1)).altitude →
        (jsGet windData i).altitude ≠ (jsGet windData (i + 1)).altitude →
        getWindBandPercentage alt windData i =
          (alt - (jsGet windData i).altitude) /
            ((jsGet windData (i + 1)).altitude - (jsGet windData i).altitude) ∧
        0 ≤ getWindBandPercentage alt windData i ∧ getWindBandPercentage alt windData i ≤ 1) := by
  intro alt windData i
  set fA := (jsGet windData i).altitude with hfA
  set cA := (jsGet windData (i + 1)).altitude with hcA
  have key : (0 ≤ i → i + 1 < (windData.length : ℤ) → fA ≤ alt → alt ≤ cA → fA ≠ cA →
      getWindBandPercentage alt windData i = (alt - fA) / (cA - fA) ∧
      0 ≤ getWindBandPercentage alt windData i ∧ getWindBandPercentage alt windData i ≤ 1) := by
    intro hi hlen hfa hca hne
    have h1 : ¬(i < 0 ∨ (windData.length : ℤ) ≤ i + 1) := by push_neg; exact ⟨hi, hlen⟩
    have h2 : ¬(alt < fA ∨ cA < alt) := by push_neg; exact ⟨hfa, hca⟩
    have hlt : fA < cA := lt_of_le_of_ne (le_trans hfa hca) hne
    have h3 : ¬(|cA - fA| = 0) := by
      rw [abs_eq_zero, sub_eq_zero]
      exact fun h => hne h.symm
    have hres : getWindBandPercentage alt windData i = (alt - fA) / (cA - fA) := by
      rw [getWindBandPercentage, if_neg h1, if_neg h2, if_neg h3,
        abs_of_nonneg (by linarith : (0 : ℚ) ≤ alt - fA),
        abs_of_nonneg (by linarith : (0 : ℚ) ≤ cA - fA)]
    refine ⟨hres, ?_, ?_⟩
    · rw [hres]
      exact div_nonneg (by linarith) (by linarith)
    · rw [hres, div_le_one (by linarith)]
      linarith
  refine ⟨?_, key⟩
  constructor
  · intro hres
    by_contra hcond
    push_neg at hcond
    obtain ⟨hi, hlen, hfa, hca, hne⟩ := hcond
    have := key hi hlen hfa hca hne
    have h0 : (0 : ℚ) ≤ -1 := hres ▸ this.2.1
    norm_num at h0
  · intro hcond
    rw [getWindBandPercentage]
    rcases hcond with h | h | h | h | h
    · rw [if_pos (Or.inl h)]
    · rw [if_pos (Or.inr h)]
    · by_cases hb : i < 0 ∨ (windData.length : ℤ) ≤ i + 1
      · rw [if_pos hb]
      · rw [if_neg hb, if_pos (Or.inl h)]
    · by_cases hb : i < 0 ∨ (windData.length : ℤ) ≤ i + 1
      · rw [if_pos hb]
      · rw [if_neg hb, if_pos (Or.inr h)]
    · by_cases hb : i < 0 ∨ (windData.length : ℤ) ≤ i + 1
      · rw [if_pos hb]
      · rw [if_neg hb]
        by_cases hr : alt < fA ∨ cA < alt
        · rw [if_pos hr]
        · rw [if_neg hr, if_pos (by rw [abs_eq_zero, sub_eq_zero]; exact h.symm)]

/-- Witness for C8 at a concrete input. -/
theorem windBandPercentage_sentinel_witness :
    getWindBandPercentage 50 [⟨0, 0, 0⟩, ⟨200, 0, 0⟩] 0 = (50 - 0) / (200 - 0) ∧
    getWindBandPercentage 500 [⟨0, 0, 0⟩, ⟨200, 0, 0⟩] 0 = -1 := by
  constructor
  · have h := ((windBandPercentage_sentinel 50 [⟨0, 0, 0⟩, ⟨200, 0, 0⟩] 0).2
      (by norm_num) (by norm_num) (by norm_num [jsGet]) (by norm_num [jsGet])
      (by norm_num [jsGet])).1
    simpa [jsGet] using h
  · exact (windBandPercentage_sentinel 500 [⟨0, 0, 0⟩, ⟨200, 0, 0⟩] 0).1.2
      (by norm_num [jsGet])

/-- C10: `getLandingLocation` is total; it returns `none` exactly when
the flight path is empty and otherwise the last flight-path point's
location. -/
theorem getLandingLocation_total :
    ∀ sim : LaunchSimulationData,
      (getLandingLocation sim = none ↔ sim.launchPath = []) ∧
      ∀ p, sim.launchPath.getLast? = some p → getLandingLocation sim = some p.location := by
  intro sim
  cases h : sim.launchPath with
  | nil => simp [getLandingLocation, h]
  | cons a l =>
    constructor
    · simp only [getLandingLocation, h]
      simp [List.getLast?_cons]
    · intro p hp
      simp only [getLandingLocation, h] at hp ⊢
      simp [hp]

/-- Witness for C10 at a concrete simulation value. -/
theorem getLandingLocation_total_witness :
    getLandingLocation ⟨9, 0, [⟨0, ⟨1, 2⟩⟩]⟩ = some ⟨1, 2⟩ := by
  exact (getLandingLocation_total ⟨9, 0, [⟨0, ⟨1, 2⟩⟩]⟩).2 ⟨0, ⟨1, 2⟩⟩ rfl

/-- C3: with a ground wind speed above the weathercock table's highest
entry, the inline `weathercockAdjustment` of `calculateLandingPlots`
returns the error sentinel `-1` with the location unmoved (its caller
then falls back to the unadjusted apogee), whereas the
`RocketWeathercocking` implementation — and the claim — clamp to the
highest entry's apogee and upwind displacement. -/
theorem weathercock_above_table_divergence :
    weathercockAdjustment ⟨0, 0⟩ 90 25
      [⟨0, 0, 1000⟩, ⟨5, 100, 950⟩, ⟨10, 200, 900⟩, ⟨15, 300, 850⟩, ⟨20, 400, 800⟩] =
      (-1, (⟨0, 0⟩ : GeoLocation)) ∧
    rwWeathercockAdjustment 3000
      [⟨0, 0, 1000⟩, ⟨5, 100, 950⟩, ⟨10, 200, 900⟩, ⟨15, 300, 850⟩, ⟨20, 400, 800⟩]
      ⟨0, 0⟩ 25 90 =
      (800, moveAlongBearing ⟨0, 0⟩ (feetToMeters 400) 90) ∧
    (-1 : ℚ) ≠ 800 := by
  refine ⟨?_, ?_, by norm_num⟩
  · norm_num [weathercockAdjustment, weathercockScan]
  · norm_num [rwWeathercockAdjustment, weathercockScan, List.getLast]

/-- C5: an hour whose (possibly weathercock-adjusted) apogee lies above
the highest wind sample yields no result; an hour whose descent schedule
has fewer than two steps yields no result; and an hour yielding no
result is skipped while the batch continues with the remaining hours. -/
theorem hour_skipped_on_failure :
    (∀ (launchLoc rocketLoc : GeoLocation) (a : ℚ) (wd : List WindAtAltitude)
      (dd : Bool) (da mr dr : ℚ),
      wd.Pairwise (fun u v => u.altitude < v.altitude) →
      (∀ w, wd.getLast? = some w → w.altitude < a) →
      descentPhase launchLoc rocketLoc a wd dd da mr dr = none) ∧
    (∀ (launchLoc rocketLoc : GeoLocation) (a : ℚ) (wd : List WindAtAltitude)
      (dd : Bool) (da mr dr : ℚ),
      (buildDescentList wd (findCeilIndex wd a - 1) a (if dd then dr else mr) da mr).1.length < 2 →
      descentPhase launchLoc rocketLoc a wd dd da mr dr = none) ∧
    (∀ (launchLoc : GeoLocation) (a : ℚ) (dd : Bool) (da mr dr : ℚ)
      (f : List WindAtAltitude) (fs : List (List WindAtAltitude)),
      descentPhase launchLoc launchLoc a f dd da mr dr = none →
      simulateBatch launchLoc a dd da mr dr (f :: fs) = simulateBatch launchLoc a dd da mr dr fs) := by
  refine ⟨?_, ?_, ?_⟩
  · intro lLoc rLoc a wd dd da mr dr hSorted hTop
    cases wd with
    | nil =>
      norm_num [descentPhase, findCeilIndex, findCeilAux, buildDescentList, bandWalk, bandStep,
        jsGet, getWindBandPercentage, getAverageWindSpeed, getAverageWindDirection]
    | cons w rest =>
      have hall : ∀ w' ∈ rest, w'.altitude < a := by
        intro w' hw'
        have hwl : (w :: rest).getLast? = some ((w :: rest).getLast (by simp)) :=
          List.getLast?_eq_getLast _ _
        exact lt_of_le_of_lt
          (sorted_le_getLast hSorted (List.mem_cons_of_mem w hw') hwl)
          (hTop _ hwl)
      have hj : findCeilIndex (w :: rest) a = (w :: rest).length := by
        rw [findCeilIndex]
        simp only [List.drop_succ_cons, List.drop_zero]
        rw [findCeilAux_all a rest 1 hall]
        simp [List.length_cons]
        omega
      simp [descentPhase, hj]
  · intro lLoc rLoc a wd dd da mr dr h
    by_cases hj : findCeilIndex wd a = wd.length
    · simp [descentPhase, hj]
    · simp only [descentPhase, if_neg hj]
      rw [if_pos h]
  · intro lLoc a dd da mr dr f fs h
    simp [simulateBatch, List.filterMap_cons, h]

/-- Witness for C5: a concrete out-of-range apogee, a concrete
degenerate two-step-less schedule, and the batch skip at those hours. -/
theorem hour_skipped_on_failure_witness :
    descentPhase ⟨0, 0⟩ ⟨0, 0⟩ 200 [⟨0, 0, 0⟩, ⟨100, 0, 0⟩] false (-1) 20 20 = none ∧
    descentPhase ⟨0, 0⟩ ⟨0, 0⟩ 0 [⟨0, 0, 0⟩, ⟨0, 0, 0⟩] false (-1) 20 20 = none ∧
    simulateBatch ⟨0, 0⟩ 200 false (-1) 20 20 [[⟨0, 0, 0⟩, ⟨100, 0, 0⟩]] =
      simulateBatch ⟨0, 0⟩ 200 false (-1) 20 20 [] := by
  have h1 : descentPhase (⟨0, 0⟩ : GeoLocation) ⟨0, 0⟩ 200 [⟨0, 0, 0⟩, ⟨100, 0, 0⟩]
      false (-1) 20 20 = none := by
    apply hour_skipped_on_failure.1
    · norm_num [List.pairwise_cons]
    · intro w hw
      simp at hw
      rw [← hw]
      norm_num
  refine ⟨h1, ?_, hour_skipped_on_failure.2.2 ⟨0, 0⟩ 200 false (-1) 20 20 _ [] h1⟩
  apply hour_skipped_on_failure.2.1
  norm_num [buildDescentList, bandWalk, bandStep, jsGet, findCeilIndex, findCeilAux]

/-- C7 counterexample: a zero-wind profile whose lowest sample (10000 ft)
lies above the apogee (50 ft) still completes the hour, and the landing
point moves away from the launch point: the band query's -1 sentinel
leaks into the apogee step's averaged wind speed, giving a strictly
negative landing latitude from launch (0, 0), so the claim as stated is
false of the program. -/
theorem zero_wind_claim_counterexample :
    (([⟨10000, 0, 0⟩, ⟨20000, 0, 0⟩] : List WindAtAltitude).all
      fun w => decide (w.windSpeed = 0)) = true ∧
    ((descentPhase ⟨0, 0⟩ ⟨0, 0⟩ 50 [⟨10000, 0, 0⟩, ⟨20000, 0, 0⟩] false (-1) 20 20).bind
      (fun path => (path.getLast?).map fun pt => pt.location.latitude)) ≠ some 0 := by
  constructor
  · rfl
  · have heval : ((descentPhase ⟨0, 0⟩ ⟨0, 0⟩ 50 [⟨10000, 0, 0⟩, ⟨20000, 0, 0⟩]
        false (-1) 20 20).bind
        (fun path => (path.getLast?).map fun pt => pt.location.latitude)) =
        some ((moveAlongBearing ⟨0, 0⟩ (feetToMeters (33587419 / 80000)) (359 / 2)).latitude) := by
      norm_num [descentPhase, buildDescentList, bandWalk, bandStep, findCeilIndex, findCeilAux,
        getWindBandPercentage, getAverageWindSpeed, getAverageWindDirection, averageDirectionCore,
        jsGet, integrate, driftWithWind]
    rw [heval]
    have hq1 : (0 : ℚ) < feetToMeters (33587419 / 80000) := by norm_num [feetToMeters]
    have hq2 : (feetToMeters (33587419 / 80000) : ℚ) < 200 := by norm_num [feetToMeters]
    have hδpos : 0 < ((feetToMeters (33587419 / 80000) : ℚ) : ℝ) / 6371000 := by
      apply div_pos
      · exact_mod_cast hq1
      · norm_num
    have hδlt : ((feetToMeters (33587419 / 80000) : ℚ) : ℝ) / 6371000 < Real.pi := by
      have h3 : ((feetToMeters (33587419 / 80000) : ℚ) : ℝ) / 6371000 < 3 := by
        rw [div_lt_iff₀ (by norm_num : (0 : ℝ) < 6371000)]
        calc ((feetToMeters (33587419 / 80000) : ℚ) : ℝ) < 200 := by exact_mod_cast hq2
          _ < 3 * 6371000 := by norm_num
      linarith [Real.pi_gt_three]
    have hsin : 0 < Real.sin (((feetToMeters (33587419 / 80000) : ℚ) : ℝ) / 6371000) :=
      Real.sin_pos_of_pos_of_lt_pi hδpos hδlt
    have hθcos : Real.cos ((359 / 2 : ℝ) * Real.pi / 180) < 0 := by
      have hpi := Real.pi_pos
      apply Real.cos_neg_of_pi_div_two_lt_of_lt
      · nlinarith
      · nlinarith
    have hlt : (moveAlongBearing ⟨0, 0⟩ (feetToMeters (33587419 / 80000)) (359 / 2)).latitude < 0 := by
      simp only [moveAlongBearing]
      norm_num
      have harg : Real.sin (((feetToMeters (33587419 / 80000) : ℚ) : ℝ) / 6371000) *
          Real.cos ((359 / 2 : ℝ) * Real.pi / 180) < 0 :=
        mul_neg_of_pos_of_neg hsin hθcos
      have harcsin := Real.arcsin_lt_zero.2 harg
      apply div_neg_of_neg_of_pos
      · apply mul_neg_of_neg_of_pos
        · exact harcsin
        · norm_num
      · exact Real.pi_pos
    intro hcontra
    rw [Option.some_inj] at hcontra
    exact absurd hcontra (ne_of_lt hlt)

/-- C7 (amended): when every wind sample's speed is zero and the lowest
sample's altitude does not exceed the apogee (so the apogee band query
cannot return its -1 sentinel), any hour the simulator completes lands
exactly at the launch point — every flight-path point (including the
final landing point) sits at the launch location, for any descent rates
and deployment configuration. -/
theorem zero_wind_lands_at_launch
    (launchLoc : GeoLocation) (a : ℚ) (windData : List WindAtAltitude)
    (dd : Bool) (da mr dr : ℚ)
    (hz : ∀ w ∈ windData, w.windSpeed = 0)
    (hSorted : windData.Pairwise (fun u v => u.altitude < v.altitude))
    (hHead : ∀ w, windData.head? = some w → w.altitude ≤ a)
    (hLat1 : -90 ≤ launchLoc.latitude) (hLat2 : launchLoc.latitude ≤ 90)
    (hLon1 : -180 ≤ launchLoc.longitude) (hLon2 : launchLoc.longitude < 180) :
    ∀ path, descentPhase launchLoc launchLoc a windData dd da mr dr = some path →
      (∀ pt ∈ path, pt.location = launchLoc) ∧
      (path.getLast?).map (fun pt => pt.location) = some launchLoc := by
  intro path hpath
  by_cases hj : findCeilIndex windData a = windData.length
  · rw [descentPhase, if_pos hj] at hpath
    cases hpath
  cases windData with
  | nil =>
    exfalso
    have hnone : descentPhase launchLoc launchLoc a [] dd da mr dr = none := by
      norm_num [descentPhase, findCeilIndex, findCeilAux, buildDescentList, bandWalk, bandStep,
        jsGet, getWindBandPercentage, getAverageWindSpeed, getAverageWindDirection]
    rw [hnone] at hpath
    cases hpath
  | cons w rest =>
    have hjeq0 : findCeilIndex (w :: rest) a = findCeilAux a rest 1 := by
      rw [findCeilIndex]
      simp [List.drop_succ_cons]
    rcases findCeilAux_spec a rest 1 with hend | ⟨k, hk, heq, hka, hmlt⟩
    · exfalso
      apply hj
      rw [hjeq0, hend]
      simp [List.length_cons]
      omega
    have hjeq : findCeilIndex (w :: rest) a = 1 + k := by rw [hjeq0, heq]
    have hsub : findCeilIndex (w :: rest) a - 1 = k := by omega
    have hlen : k + 1 < (w :: rest).length := by simp [List.length_cons]; omega
    have hgetHi : (w :: rest).getD (k + 1) default = rest.getD k default := by
      simp [List.getD_cons_succ]
    have hrestk : rest[k]? = some (rest.getD k default) := by
      rw [List.getD_eq_getElem?_getD, List.getElem?_eq_getElem hk]
      simp
    have hca : a ≤ ((w :: rest).getD (k + 1) default).altitude := by
      rw [hgetHi]
      exact hka _ hrestk
    have hfa : ((w :: rest).getD k default).altitude ≤ a := by
      cases k with
      | zero =>
        simp only [List.getD_cons_zero]
        exact hHead w rfl
      | succ k' =>
        simp only [List.getD_cons_succ]
        have hk' : k' < rest.length := by omega
        have : rest[k']? = some (rest.getD k' default) := by
          rw [List.getD_eq_getElem?_getD, List.getElem?_eq_getElem hk']
          simp
        exact le_of_lt (hmlt k' (by omega) _ this)
    have hlt : ((w :: rest).getD k default).altitude < ((w :: rest).getD (k + 1) default).altitude := by
      have h1 : k < (w :: rest).length := by omega
      have h2 : k + 1 < (w :: rest).length := hlen
      have := (List.pairwise_iff_get.1 hSorted) ⟨k, h1⟩ ⟨k + 1, h2⟩ (by simp)
      rw [List.getD_eq_getElem?_getD, List.getElem?_eq_getElem h1,
        List.getD_eq_getElem?_getD, List.getElem?_eq_getElem h2]
      simpa using this
    -- speeds of the apogee step
    have hp := getWindBandPercentage_valid hlen hfa hca hlt
    have hs0 : getAverageWindSpeed (getWindBandPercentage a (w :: rest) (k : ℤ)) (w :: rest) (k : ℤ) = 0 := by
      rw [getAverageWindSpeed_eval hp.1 hp.2 hlen, hz _ (getD_mem (by omega)), hz _ (getD_mem hlen)]
      ring
    rw [descentPhase, if_neg hj] at hpath
    rw [hsub] at hpath
    by_cases hlen2 : (buildDescentList (w :: rest) k a (if dd then dr else mr) da mr).1.length < 2
    · rw [if_pos hlen2] at hpath
      cases hpath
    rw [if_neg hlen2] at hpath
    simp only [buildDescentList] at hpath
    rw [Option.some_inj] at hpath
    subst hpath
    have hall : ∀ pt ∈ (⟨0, launchLoc⟩ : LaunchPathPoint) ::
        (⟨(bandWalk (w :: rest) da mr k (if dd then dr else mr) a).2.2, launchLoc⟩ : LaunchPathPoint) ::
        integrate ⟨a, if dd then dr else mr,
            getAverageWindSpeed (getWindBandPercentage a (w :: rest) (k : ℤ)) (w :: rest) (k : ℤ),
            getAverageWindDirection (getWindBandPercentage a (w :: rest) (k : ℤ)) (w :: rest) (k : ℤ)⟩
          (if dd then dr else mr) launchLoc
          (bandWalk (w :: rest) da mr k (if dd then dr else mr) a).1,
        pt.location = launchLoc := by
      intro pt hpt
      rcases List.mem_cons.1 hpt with h | hpt
      · rw [h]
      rcases List.mem_cons.1 hpt with h | hpt
      · rw [h]
      exact integrate_zero_speeds launchLoc hLat1 hLat2 hLon1 hLon2 _ _ _ hs0
        (bandWalk_speeds_zero hz k hlen _ _) pt hpt
    exact ⟨hall, getLast_loc_of_all (by simp) hall⟩

/-- Witness for C7 at a concrete zero-wind profile. -/
theorem zero_wind_lands_at_launch_witness :
    ((descentPhase ⟨0, 0⟩ ⟨0, 0⟩ 1000 [⟨0, 0, 0⟩, ⟨1000, 0, 0⟩] false (-1) 20 20).bind
      (fun path => (path.getLast?).map (fun pt => pt.location))) = some ⟨0, 0⟩ := by
  have hsome : (descentPhase (⟨0, 0⟩ : GeoLocation) ⟨0, 0⟩ 1000 [⟨0, 0, 0⟩, ⟨1000, 0, 0⟩]
      false (-1) 20 20).isSome = true := by
    norm_num [descentPhase, buildDescentList, bandWalk, bandStep, findCeilIndex, findCeilAux,
      getWindBandPercentage, getAverageWindSpeed, getAverageWindDirection, averageDirectionCore,
      jsGet, integrate]
  obtain ⟨path, hpath⟩ := Option.isSome_iff_exists.1 hsome
  rw [hpath]
  show (path.getLast?).map (fun pt => pt.location) = some ⟨0, 0⟩
  refine (zero_wind_lands_at_launch ⟨0, 0⟩ 1000 [⟨0, 0, 0⟩, ⟨1000, 0, 0⟩] false (-1) 20 20
    ?_ ?_ ?_ (by norm_num) (by norm_num) (by norm_num) (by norm_num) path hpath).2
  · intro w hw
    simp at hw
    rcases hw with h | h
    · rw [h]
    · rw [h]
  · norm_num [List.pairwise_cons]
  · intro w hw
    simp at hw
    rw [← hw]
    norm_num

/-- C4 counterexample: an hour whose integration steps all carry a zero
descent rate still produces a result — the schedule's rates are `[0, 0]`
yet `descentPhase` yields a flight path, so the hour is not skipped. -/
theorem zero_rate_hour_still_produces_result :
    (descentPhase ⟨0, 0⟩ ⟨0, 0⟩ 1000 [⟨0, 5, 90⟩, ⟨1000, 5, 90⟩] false (-1) 0 0).isSome = true ∧
    (buildDescentList [⟨0, 5, 90⟩, ⟨1000, 5, 90⟩] 0 1000 0 (-1) 0).1.map
      (fun s => s.descentRate) = [0, 0] := by
  constructor
  · norm_num [descentPhase, buildDescentList, bandWalk, bandStep, findCeilIndex, findCeilAux,
      getWindBandPercentage, getAverageWindSpeed, getAverageWindDirection,
      averageDirectionCore, jsGet, integrate]
  · norm_num [buildDescentList, bandWalk, bandStep, jsGet]

/-- C4 amended: on a zero descent rate `driftWithWind` performs no
division and returns the location unchanged, so the integration step is
silently ignored while the hour still produces a result whose appended
points sit at the unmoved location. -/
theorem zero_rate_skips_step_not_hour :
    (∀ (loc : GeoLocation) (s d dist : ℚ), driftWithWind loc s d 0 dist = loc) ∧
    descentPhase ⟨0, 0⟩ ⟨0, 0⟩ 1000 [⟨0, 5, 90⟩, ⟨1000, 5, 90⟩] false (-1) 0 0 =
      some [⟨0, ⟨0, 0⟩⟩, ⟨1000, ⟨0, 0⟩⟩, ⟨0, ⟨0, 0⟩⟩] := by
  constructor
  · intro loc s d dist
    simp [driftWithWind]
  · norm_num [descentPhase, buildDescentList, bandWalk, bandStep, findCeilIndex, findCeilAux,
      getWindBandPercentage, getAverageWindSpeed, getAverageWindDirection,
      averageDirectionCore, jsGet, integrate, driftWithWind]

/-- C2: when dual deployment is active and a wind sample's altitude (at
or below the apogee band's floor) exactly equals the main deployment
altitude, the generated descent schedule contains exactly one step at
that altitude, carrying the main (not drogue) rate and that sample's raw
non-interpolated wind speed and direction, and every schedule step
strictly below it also carries the main rate. -/
theorem dual_deploy_exact_sample_step
    (windData : List WindAtAltitude) (floorIndex k : ℕ)
    (rocketAltitude rate0 mainDeployAltitude mainDescentRate : ℚ)
    (hSorted : windData.Pairwise (fun u v => u.altitude < v.altitude))
    (hfl : floorIndex + 1 < windData.length)
    (hkfl : k ≤ floorIndex)
    (hda : (windData.getD k default).altitude = mainDeployAltitude)
    (hap : (windData.getD floorIndex default).altitude < rocketAltitude) :
    ((buildDescentList windData floorIndex rocketAltitude rate0
        mainDeployAltitude mainDescentRate).1.filter
      (fun s => s.altitude = mainDeployAltitude)) =
      [⟨mainDeployAltitude, mainDescentRate,
        (windData.getD k default).windSpeed, (windData.getD k default).windDirection⟩] ∧
    ∀ s ∈ (buildDescentList windData floorIndex rocketAltitude rate0
        mainDeployAltitude mainDescentRate).1,
      s.altitude < mainDeployAltitude → s.descentRate = mainDescentRate := by
  have hkd : mainDeployAltitude ≤ (windData.getD floorIndex default).altitude := by
    rcases Nat.lt_or_ge k floorIndex with h | h
    · rw [← hda]
      exact le_of_lt (sorted_getD_lt hSorted h (by omega))
    · have : k = floorIndex := by omega
      rw [← hda, this]
  have hapda : mainDeployAltitude < rocketAltitude := lt_of_le_of_lt hkd hap
  have hw := bandWalk_deploy_exact mainDescentRate hSorted
    (by omega : k + 1 < windData.length) hda floorIndex hkfl hfl rate0 rocketAltitude
  constructor
  · simp only [buildDescentList]
    rw [List.filter_cons_of_neg]
    · exact hw.1
    · simp only [decide_eq_true_eq]
      exact ne_of_gt hapda
  · intro s hs
    simp only [buildDescentList, List.mem_cons] at hs
    rcases hs with hs | hs
    · subst hs
      intro habs
      exact absurd habs (not_lt.2 (le_of_lt hapda))
    · exact hw.2 s hs

/-- Witness for C2 on the spec's scenario profile (samples at 0, 500,
1500 ft; apogee 1500 ft; main deployment at the 500 ft sample; drogue
rate 75, main rate 20). -/
theorem dual_deploy_exact_sample_step_witness :
    ((buildDescentList [⟨0, 1, 10⟩, ⟨500, 2, 20⟩, ⟨1500, 3, 30⟩] 1 1500 75 500 20).1.filter
      (fun s => s.altitude = 500)) = [⟨500, 20, 2, 20⟩] ∧
    ∀ s ∈ (buildDescentList [⟨0, 1, 10⟩, ⟨500, 2, 20⟩, ⟨1500, 3, 30⟩] 1 1500 75 500 20).1,
      s.altitude < 500 → s.descentRate = 20 := by
  exact dual_deploy_exact_sample_step [⟨0, 1, 10⟩, ⟨500, 2, 20⟩, ⟨1500, 3, 30⟩] 1 1
    1500 75 500 20
    (by norm_num [List.pairwise_cons])
    (by norm_num) (by norm_num) rfl (by norm_num)

/-- C9 (amended): for a successfully simulated hour over a strictly
ascending profile whose lowest sample is at altitude 0, with a positive
(possibly weathercock-adjusted) apogee and any deployment altitude below
it, the flight path starts with the ground-level launch point, then the
apogee point at the adjusted apogee altitude and location, then one point
per descent step in strictly descending altitude order, the last point at
altitude 0 at the fully accumulated drift location; each point stores the
coordinate values current at the moment it was appended. -/
theorem flight_path_structure
    (launchLoc rocketLoc : GeoLocation) (a : ℚ) (windData : List WindAtAltitude)
    (dd : Bool) (da mr dr : ℚ)
    (hSorted : windData.Pairwise (fun u v => u.altitude < v.altitude))
    (hHead0 : ∀ w, windData.head? = some w → w.altitude = 0)
    (hPos : 0 < a)
    (hdaLt : da < a) :
    ∀ path, descentPhase launchLoc rocketLoc a windData dd da mr dr = some path →
      path.head? = some ⟨0, launchLoc⟩ ∧
      path[1]? = some ⟨a, rocketLoc⟩ ∧
      List.Chain' (fun p q => q.altitude < p.altitude) (path.drop 1) ∧
      ((path.drop 2).map fun pt => pt.altitude) =
        ((buildDescentList windData (findCeilIndex windData a - 1) a
          (if dd then dr else mr) da mr).1.drop 1).map (fun s => s.altitude) ∧
      ((path.getLast?).map fun pt => pt.altitude) = some 0 ∧
      ∃ apogeeStep walkSteps,
        (buildDescentList windData (findCeilIndex windData a - 1) a
          (if dd then dr else mr) da mr).1 = apogeeStep :: walkSteps ∧
        ((path.getLast?).map fun pt => pt.location) =
          some (driftFold apogeeStep apogeeStep.descentRate rocketLoc walkSteps) := by
  intro path hpath
  by_cases hj : findCeilIndex windData a = windData.length
  · rw [descentPhase, if_pos hj] at hpath
    cases hpath
  cases windData with
  | nil =>
    exfalso
    have hnone : descentPhase launchLoc rocketLoc a [] dd da mr dr = none := by
      norm_num [descentPhase, findCeilIndex, findCeilAux, buildDescentList, bandWalk, bandStep,
        jsGet, getWindBandPercentage, getAverageWindSpeed, getAverageWindDirection]
    rw [hnone] at hpath
    cases hpath
  | cons w rest =>
    have hjeq0 : findCeilIndex (w :: rest) a = findCeilAux a rest 1 := by
      rw [findCeilIndex]
      simp [List.drop_succ_cons]
    rcases findCeilAux_spec a rest 1 with hend | ⟨k, hk, heq, hka, hmlt⟩
    · exfalso
      apply hj
      rw [hjeq0, hend]
      simp [List.length_cons]
      omega
    have hjeq : findCeilIndex (w :: rest) a = 1 + k := by rw [hjeq0, heq]
    have hsub : findCeilIndex (w :: rest) a - 1 = k := by omega
    have hlen : k + 1 < (w :: rest).length := by simp [List.length_cons]; omega
    have hw0 : w.altitude = 0 := hHead0 w rfl
    have hfloorLt : ((w :: rest).getD k default).altitude < a := by
      cases k with
      | zero =>
        simp only [List.getD_cons_zero]
        rw [hw0]
        exact hPos
      | succ k' =>
        simp only [List.getD_cons_succ]
        have hk' : k' < rest.length := by omega
        have hrk : rest[k']? = some (rest.getD k' default) := by
          rw [List.getD_eq_getElem?_getD, List.getElem?_eq_getElem hk']
          simp
        exact hmlt k' (by omega) _ hrk
    have hg0 : ((w :: rest).getD 0 default).altitude = 0 := by
      simp only [List.getD_cons_zero]
      exact hw0
    set rate0 := if dd = true then dr else mr with hrate0
    have hord := bandWalk_ordered da mr hSorted k hlen rate0 a
    obtain ⟨s1, srest, hwalkcons⟩ := List.exists_cons_of_ne_nil hord.1
    rw [descentPhase, if_neg hj, hsub] at hpath
    by_cases hlen2 : (buildDescentList (w :: rest) k a rate0 da mr).1.length < 2
    · rw [if_pos hlen2] at hpath
      cases hpath
    rw [if_neg hlen2] at hpath
    simp only [buildDescentList] at hpath
    rw [Option.some_inj] at hpath
    rw [← hrate0] at hpath
    rw [hsub]
    subst hpath
    have hwalkne : (bandWalk (w :: rest) da mr k rate0 a).1 ≠ [] := hord.1
    have hintgne : integrate
        ⟨a, rate0, getAverageWindSpeed (getWindBandPercentage a (w :: rest) (k : ℤ)) (w :: rest) (k : ℤ),
          getAverageWindDirection (getWindBandPercentage a (w :: rest) (k : ℤ)) (w :: rest) (k : ℤ)⟩
        rate0 rocketLoc (bandWalk (w :: rest) da mr k rate0 a).1 ≠ [] := by
      rw [hwalkcons]
      simp [integrate]
    have hmapalt := integrate_map_altitude (bandWalk (w :: rest) da mr k rate0 a).1
      ⟨a, rate0, getAverageWindSpeed (getWindBandPercentage a (w :: rest) (k : ℤ)) (w :: rest) (k : ℤ),
        getAverageWindDirection (getWindBandPercentage a (w :: rest) (k : ℤ)) (w :: rest) (k : ℤ)⟩
      rate0 rocketLoc
    refine ⟨rfl, ?_, ?_, ?_, ?_, ?_⟩
    · simp only [List.getElem?_cons_succ, List.getElem?_cons_zero, Option.some_inj]
      rw [hord.2.2.2.2]
    · -- chain of the dropped path
      show List.Chain' (fun p q => q.altitude < p.altitude)
        (({altitude := (bandWalk (w :: rest) da mr k rate0 a).2.2, location := rocketLoc} : LaunchPathPoint) :: integrate _ _ _ _)
      rw [List.chain'_cons']
      constructor
      · intro y hy
        have hymem : y ∈ integrate _ _ _ _ := List.mem_of_mem_head? hy
        -- altitude of any integrate point is an altitude of a walk step
        have : y.altitude ∈ ((bandWalk (w :: rest) da mr k rate0 a).1.map (fun s => s.altitude)) := by
          rw [← hmapalt]
          exact List.mem_map_of_mem _ hymem
        rw [List.mem_map] at this
        obtain ⟨s, hsmem, hseq⟩ := this
        have hs := hord.2.2.1 s hsmem
        rw [hord.2.2.2.2, ← hseq]
        rcases hs.2 with h | h
        · exact lt_of_le_of_lt h hfloorLt
        · rw [h]
          exact hdaLt
      · -- chain within the integrate points
        have hchainmap : List.Chain' (fun x y => y < x)
            (((bandWalk (w :: rest) da mr k rate0 a).1).map (fun s => s.altitude)) :=
          (List.chain'_map _).2 hord.2.1
        rw [← hmapalt] at hchainmap
        exact (List.chain'_map _).1 hchainmap
    · show ((integrate _ _ _ _).map fun pt => pt.altitude) = _
      rw [hmapalt]
      simp only [buildDescentList, List.drop_succ_cons, List.drop_zero]
    · rw [getLast?_cons_ne _ (by simp), getLast?_cons_ne _ hintgne]
      obtain ⟨sl, hsl⟩ : ∃ sl, ((bandWalk (w :: rest) da mr k rate0 a).1).getLast? = some sl :=
        ⟨_, List.getLast?_eq_getLast _ hwalkne⟩
      have hsl0 : sl.altitude = 0 := by
        rw [← hg0]
        exact hord.2.2.2.1 sl hsl
      rw [← List.getLast?_map]
      rw [hmapalt]
      rw [List.getLast?_map]
      rw [hsl]
      simp [hsl0]
    · refine ⟨⟨a, rate0, getAverageWindSpeed (getWindBandPercentage a (w :: rest) (k : ℤ)) (w :: rest) (k : ℤ),
          getAverageWindDirection (getWindBandPercentage a (w :: rest) (k : ℤ)) (w :: rest) (k : ℤ)⟩,
        (bandWalk (w :: rest) da mr k rate0 a).1, ?_, ?_⟩
      · simp only [buildDescentList]
      · rw [getLast?_cons_ne _ (by simp), getLast?_cons_ne _ hintgne]
        exact integrate_getLast_location _ _ _ _ hwalkne

/-- C9 counterexample: a profile whose lowest sample is at 100 ft with
apogee 150 ft simulates successfully, yet the last flight-path point sits
at altitude 100, not 0, so the claim's last-point-at-ground clause fails
as universally stated. -/
theorem flight_path_last_not_ground :
    (descentPhase ⟨0, 0⟩ ⟨0, 0⟩ 150 [⟨100, 5, 90⟩, ⟨200, 5, 90⟩] false (-1) 20 20).map
      (fun path => (path.getLast?).map fun pt => pt.altitude) = some (some 100) ∧
    (100 : ℚ) ≠ 0 := by
  constructor
  · norm_num [descentPhase, buildDescentList, bandWalk, bandStep, findCeilIndex, findCeilAux,
      getWindBandPercentage, getAverageWindSpeed, getAverageWindDirection, averageDirectionCore,
      jsGet, integrate]
  · norm_num

/-- Witness for C9 (amended) at a concrete profile. -/
theorem flight_path_structure_witness :
    ((descentPhase ⟨0, 0⟩ ⟨0, 0⟩ 1000 [⟨0, 3, 10⟩, ⟨1000, 6, 200⟩] false (-1) 20 20).map
      (fun path => path.head?)) = some (some ⟨0, ⟨0, 0⟩⟩) ∧
    ((descentPhase ⟨0, 0⟩ ⟨0, 0⟩ 1000 [⟨0, 3, 10⟩, ⟨1000, 6, 200⟩] false (-1) 20 20).map
      (fun path => (path.getLast?).map fun pt => pt.altitude)) = some (some 0) := by
  have hsome : (descentPhase (⟨0, 0⟩ : GeoLocation) ⟨0, 0⟩ 1000 [⟨0, 3, 10⟩, ⟨1000, 6, 200⟩]
      false (-1) 20 20).isSome = true := by
    norm_num [descentPhase, buildDescentList, bandWalk, bandStep, findCeilIndex, findCeilAux,
      getWindBandPercentage, getAverageWindSpeed, getAverageWindDirection, averageDirectionCore,
      jsGet, integrate]
  obtain ⟨path, hpath⟩ := Option.isSome_iff_exists.1 hsome
  have h := flight_path_structure ⟨0, 0⟩ ⟨0, 0⟩ 1000 [⟨0, 3, 10⟩, ⟨1000, 6, 200⟩] false (-1) 20 20
    (by norm_num [List.pairwise_cons])
    (by
      intro w' hw
      simp only [List.head?_cons, Option.some_inj] at hw
      rw [← hw])
    (by norm_num) (by norm_num) path hpath
  rw [hpath]
  constructor
  · simp only [Option.map_some', Option.some_inj]
    exact h.1
  · simp only [Option.map_some', Option.some_inj]
    exact h.2.2.2.2.1

end DriftCast
